import Mathlib

/-!
# Verification of `ipmmap/struct_mmap_manager.py`

A shallow embedding of the struct-based memory-mapped-file manager
(`BaseStructMmapManager`, `DataStructMmapReader`, `DataStructMmapEditor`,
`DataStructMmapManager`) together with proofs about the embedded operations.

Modelling conventions:
* A ctypes structure layout is a `CType`: unsigned integer fields of a fixed
  byte width, 8-byte floats (represented by their 64-bit bit pattern, since no
  claim depends on float arithmetic), and nested structures given as a chain of
  named fields (`sCons`/`sNil`).
* Runtime values (the objects `getattr`/`setattr` handle) are `CValue`s.
  A Python integer destined for / read from a `w`-byte unsigned field is
  modelled as `vuint w n`; a Python float as `vfloat pat`; `vint` models a
  plain Python integer that never lives in a buffer (the `-1` sentinel of
  `getLastUpdate`).
* The memory mapping is a cursor plus raw bytes (`MMap`).  Every source
  operation first executes `self.mm.seek(0)`; the embedding keeps that step
  explicit, and decoding reads at the cursor, so the effect of the seek is
  visible in the model.
* `ctypes.Structure.from_buffer` yields a live view whose field assignments
  write through to the mapping; the embedding renders one method call's net
  effect functionally: decode the buffer, update the value, re-encode it over
  the prefix of the buffer.  On byte lists whose length is at least the struct
  size this coincides with the in-place field write (`encode_decode` below).
-/

namespace IpMmap

/-- A raw byte of the mapped file. -/
abbrev Byte := Fin 256

/-- Little-endian encoding of a natural number into `w` bytes (the ctypes
field representation used by the mapped file). -/
def natToBytes : Nat → Nat → List Byte
  | 0, _ => []
  | w + 1, v => ⟨v % 256, Nat.mod_lt _ (by omega)⟩ :: natToBytes w (v / 256)

/-- Little-endian decoding of a byte list into a natural number. -/
def bytesToNat : List Byte → Nat
  | [] => 0
  | b :: rest => b.val + 256 * bytesToNat rest

/-- ctypes field layout: a `w`-byte unsigned integer, an 8-byte float, or a
nested structure represented as a chain of named fields. -/
inductive CType : Type where
  | uint : Nat → CType
  | double : CType
  | sNil : CType
  | sCons : String → CType → CType → CType
deriving DecidableEq, Repr

/-- Runtime values seen by `getattr`/`setattr`: Python ints read from integer
fields (tagged with the field width), Python floats (by bit pattern), struct
views, and plain Python integers that never live in a buffer. -/
inductive CValue : Type where
  | vint : Int → CValue
  | vuint : Nat → Nat → CValue
  | vfloat : Nat → CValue
  | vNil : CValue
  | vCons : String → CValue → CValue → CValue
deriving DecidableEq, Repr

/-- The byte size `ctypes.sizeof` of a layout. -/
def CType.size : CType → Nat
  | .uint w => w
  | .double => 8
  | .sNil => 0
  | .sCons _ t rest => t.size + rest.size

/-- The zero-initialized value of a layout (ctypes default initialization). -/
def CType.zeroVal : CType → CValue
  | .uint w => .vuint w 0
  | .double => .vfloat 0
  | .sNil => .vNil
  | .sCons n t rest => .vCons n t.zeroVal rest.zeroVal

/-- Decoding a byte list at a layout (`from_buffer` / `from_buffer_copy`). -/
def CType.decode : CType → List Byte → CValue
  | .uint w, bs => .vuint w (bytesToNat (bs.take w))
  | .double, bs => .vfloat (bytesToNat (bs.take 8))
  | .sNil, _ => .vNil
  | .sCons n t rest, bs => .vCons n (t.decode (bs.take t.size)) (rest.decode (bs.drop t.size))

/-- Encoding a value back into bytes. -/
def CValue.encode : CValue → List Byte
  | .vint _ => []
  | .vuint w v => natToBytes w v
  | .vfloat p => natToBytes 8 p
  | .vNil => []
  | .vCons _ v rest => v.encode ++ rest.encode

/-- The layout a runtime value belongs to. -/
def CValue.typeOfV : CValue → CType
  | .vint _ => .sNil
  | .vuint w _ => .uint w
  | .vfloat _ => .double
  | .vNil => .sNil
  | .vCons n v rest => .sCons n v.typeOfV rest.typeOfV

/-- Typing relation `hasType v t`: `v` is a well-formed value of layout `t` (integer fields in
range, float patterns 64-bit, struct fields aligned with the declared ones).
This is the "representable by `T`" notion of the specification. -/
def hasType : CValue → CType → Bool
  | .vuint w v, .uint w' => w == w' && decide (v < 256 ^ w')
  | .vfloat p, .double => decide (p < 256 ^ 8)
  | .vNil, .sNil => true
  | .vCons n v rest, .sCons n' t trest => n == n' && hasType v t && hasType rest trest
  | _, _ => false

/-- Errors raised by the Python code (`AttributeError`, `TypeError`, and the
repository's `StructNotFoundIpMmapError`), together with the *specification's*
typed error taxonomy (`FieldNotFoundError`, `NotNavigableError`,
`StoreCreationError`) which the source never raises — included so that
theorems can compare the code's failures against the spec's. -/
inductive PyErr : Type where
  | attributeError : String → PyErr
  | typeError : PyErr
  | structNotFound : String → PyErr
  | fieldNotFound : String → PyErr
  | notNavigable : String → PyErr
  | storeCreationError : PyErr
deriving DecidableEq, Repr

deriving instance DecidableEq for Except

/-- Python attribute read `getattr(val, k)` on a ctypes value.  A struct view
returns the (first) field named `k`; any other object — a leaf scalar or an
empty struct — raises `AttributeError(k)`. -/
def getattrV : CValue → String → Except PyErr CValue
  | .vCons n v rest, k => if k = n then .ok v else getattrV rest k
  | _, k => .error (.attributeError k)

/-- Assignment conversion performed by ctypes when a value is stored into a
field of declared type `t`: integer fields wrap modulo their width, float
fields keep the 64-bit pattern, struct fields accept only a value of the same
layout; anything else raises `TypeError`. -/
def storeValue : CType → CValue → Except PyErr CValue
  | .uint w, .vuint _ v => .ok (.vuint w (v % 256 ^ w))
  | .uint w, .vint n => .ok (.vuint w (n % (256 ^ w : Nat)).toNat)
  | .double, .vfloat p => .ok (.vfloat (p % 256 ^ 8))
  | .sNil, v => if hasType v .sNil then .ok v else .error .typeError
  | .sCons n t rest, v =>
      if hasType v (.sCons n t rest) then .ok v else .error .typeError
  | _, _ => .error .typeError

/-- Python attribute write `setattr(val, k, newv)`.  On a struct view, writing
a declared field stores the converted value through to the buffer; writing an
*undeclared* name on a Structure instance silently creates a transient Python
attribute that never reaches the buffer, hence the view value is unchanged.
`setattr` on a leaf scalar (e.g. a `float`) raises `AttributeError(k)`. -/
def setattrV : CValue → String → CValue → Except PyErr CValue
  | .vCons n v rest, k, newv =>
      if k = n then
        match storeValue v.typeOfV newv with
        | .ok st => .ok (.vCons n st rest)
        | .error e => .error e
      else
        match setattrV rest k newv with
        | .ok rest' => .ok (.vCons n v rest')
        | .error e => .error e
  | .vNil, _, _ => .ok .vNil
  | _, k, _ => .error (.attributeError k)

/-- Replace the (first) field named `k` of a struct value; identity when the
field is absent or the value is not a struct. -/
def setField : CValue → String → CValue → CValue
  | .vCons n v rest, k, newv =>
      if k = n then .vCons n newv rest else .vCons n v (setField rest k newv)
  | v, _, _ => v

/-- The `getattr` chain of `DataStructMmapReader.readData`:
`for k in key.split('.'): val = getattr(val, k)`. -/
def walk : CValue → List String → Except PyErr CValue
  | v, [] => .ok v
  | v, k :: rest =>
      match getattrV v k with
      | .ok v' => walk v' rest
      | .error e => .error e

/-- The write path of `DataStructMmapEditor.writeData`: navigate all but the
last segment with `getattr`, then `setattr` the last segment.  Because the
intermediate views are live, the functional rendering threads the updated
sub-struct back into its parent with `setField`. -/
def writePath : CValue → List String → String → CValue → Except PyErr CValue
  | v, [], last, newv => setattrV v last newv
  | v, k :: rest, last, newv =>
      match getattrV v k with
      | .error e => .error e
      | .ok sub =>
          match writePath sub rest last newv with
          | .error e => .error e
          | .ok sub' => .ok (setField v k sub')

/-- Field lookup on a layout (the type-level counterpart of `getattrV`). -/
def lookupTy : CType → String → Option CType
  | .sCons n t rest, k => if k = n then some t else lookupTy rest k
  | _, _ => none

/-- The declared type a dotted path resolves to within a layout, if the whole
path exists ("valid path" in the specification). -/
def resolvePathTy : CType → List String → Option CType
  | t, [] => some t
  | t, k :: rest =>
      match lookupTy t k with
      | some t' => resolvePathTy t' rest
      | none => none

/-- Field lookup on a struct value without the error wrapping. -/
def lookupV : CValue → String → Option CValue
  | .vCons n v rest, k => if k = n then some v else lookupV rest k
  | _, _ => none

/-- The first segment of a path on which the `getattr` chain fails, if any. -/
def firstUnresolved : CValue → List String → Option String
  | _, [] => none
  | v, k :: rest =>
      match getattrV v k with
      | .ok v' => firstUnresolved v' rest
      | .error _ => some k

/-- Leaf scalars (Python `int` / `float` objects returned for scalar fields). -/
def isLeafV : CValue → Bool
  | .vint _ => true
  | .vuint _ _ => true
  | .vfloat _ => true
  | _ => false

/-- Struct-shaped values: a well-formed chain of named fields. -/
def isStructChain : CValue → Bool
  | .vNil => true
  | .vCons _ _ rest => isStructChain rest
  | _ => false

/-- Python `key.split('.')` on the underlying character list (Python semantics:
`''.split('.') == ['']`, `'a.'.split('.') == ['a', '']`). -/
def splitDotChars : List Char → List Char → List String
  | [], acc => [String.mk acc.reverse]
  | c :: rest, acc =>
      if c = '.' then String.mk acc.reverse :: splitDotChars rest []
      else splitDotChars rest (c :: acc)

/-- Python `key.split('.')`. -/
def splitDot (s : String) : List String := splitDotChars s.toList []

/-! ## State of an accessor and of the filesystem -/

/-- The memory mapping: a stream cursor (moved by `seek`) over the raw bytes
of the backing file. -/
structure MMap : Type where
  pos : Nat
  buf : List Byte
deriving DecidableEq, Repr

/-- The per-instance state established by `BaseStructMmapManager.__init__`
(lines 34-39): the resolved layout, the two derived file paths, the
`editable` flag of the concrete tier, and the optional mapping `self.mm`
(`None` until a region is opened). -/
structure AccessorState : Type where
  structType : CType
  mmapFilePath : String
  fastenerFilePath : String
  editable : Bool
  mm : Option MMap
deriving DecidableEq, Repr

/-- The filesystem as the Manager's create path sees it: the backing files by
path, plus whether creating/writing a file currently succeeds (false models a
`PermissionError` raised by `open(..., "wb")`). -/
structure FileSys : Type where
  files : List (String × List Byte)
  writable : Bool
deriving DecidableEq, Repr

/-- First-match lookup of a file by path. -/
def lookupFile : List (String × List Byte) → String → Option (List Byte)
  | [], _ => none
  | (q, d) :: rest, p => if p = q then some d else lookupFile rest p

/-- Add or overwrite a file. -/
def setFile : List (String × List Byte) → String → List Byte → List (String × List Byte)
  | [], p, c => [(p, c)]
  | (q, d) :: rest, p, c =>
      if p = q then (p, c) :: rest else (q, d) :: setFile rest p c

/-- Existence test `self.mmapFilePath.exists()`. -/
def fileExists (fs : FileSys) (p : String) : Bool := (lookupFile fs.files p).isSome

/-- Modelled `open(path, "wb"); fs.write(data)` — fails (raises) when the path is not
writable. -/
def fileWrite (fs : FileSys) (p : String) (c : List Byte) : Except Unit FileSys :=
  if fs.writable then .ok { fs with files := setFile fs.files p c } else .error ()

/-! ## The registry and the constructors -/

/-- The process-wide registry: the `__subclasses__()` list of
`BaseMmapStructure`, as (class name, layout) pairs in definition order. -/
abbrev Registry := List (String × CType)

/-- First-match lookup in the registry. -/
def lookupReg : Registry → String → Option CType
  | [], _ => none
  | (n, t) :: rest, name => if name = n then some t else lookupReg rest name

/-- Source `BaseStructMmapManager._searchStructType` (lines 43-48): scan the
subclass list for a class whose name equals `structName`; raise
`StructNotFoundIpMmapError(structName)` when the scan finds nothing. -/
def searchStructType : Registry → String → Except PyErr CType
  | [], name => .error (.structNotFound name)
  | (n, t) :: rest, name => if name = n then .ok t else searchStructType rest name

/-- Source `BaseStructMmapManager.__init__` (lines 34-39): resolve the struct type,
then derive `mmapFilePath` and `fastenerFilePath` from
`"{structType.__name__}_{tag}"` (directory resolution is pure path
composition and is abstracted into the string prefix). -/
def baseInit (reg : Registry) (structName tag : String) : Except PyErr AccessorState :=
  match searchStructType reg structName with
  | .error e => .error e
  | .ok st =>
      .ok { structType := st
            mmapFilePath := structName ++ "_" ++ tag ++ ".mmap"
            fastenerFilePath := structName ++ "_" ++ tag ++ ".lockfile"
            editable := false
            mm := none }

/-- Source `DataStructMmapReader.__init__` (lines 80-82). -/
def readerInit (reg : Registry) (structName tag : String) : Except PyErr AccessorState :=
  match baseInit reg structName tag with
  | .error e => .error e
  | .ok s => .ok { s with editable := false }

/-- Source `DataStructMmapEditor.__init__` (lines 114-116). -/
def editorInit (reg : Registry) (structName tag : String) : Except PyErr AccessorState :=
  match readerInit reg structName tag with
  | .error e => .error e
  | .ok s => .ok { s with editable := true }

/-- Modelled from the spec: the fixed-size header layout
(`MmapStructureHeader` of `ipmmap.struct.base_struct`, which is not among the
provided sources) — "a fixed-size header (magic constant + last-update
timestamp)", `{ magic: fixed 32/64-bit constant, time_stamp: 64-bit float
seconds since epoch }". -/
def headerType : CType :=
  .sCons "magic" (.uint 8) (.sCons "time_stamp" .double .sNil)

/-- A user layout: the header followed by the payload fields. -/
def layoutOf (payload : CType) : CType := .sCons "header" headerType payload

/-- The header value `MmapStructureHeader(0x1128, time.time())`; the current
time is passed in as the bit pattern `now`. -/
def headerVal (now : Nat) : CValue :=
  .vCons "magic" (.vuint 8 0x1128) (.vCons "time_stamp" (.vfloat now) .vNil)

/-- Source `BaseStructMmapManager._generateStruct` (lines 50-51):
`self.structType(MmapStructureHeader(0x1128, time.time()))` — a fresh struct
whose first field is the header and whose remaining fields are
zero-initialized. -/
def generateStruct (t : CType) (now : Nat) : CValue :=
  match t with
  | .sCons n _ rest => .vCons n (headerVal now) rest.zeroVal
  | t => t.zeroVal

/-- Source `BaseStructMmapManager._createNewMmapFile` (lines 53-58): write the
generated struct to the backing file, and *silently discard any failure*
(`except Exception as e: pass`). -/
def createNewMmapFile (fs : FileSys) (p : String) (c : List Byte) : FileSys :=
  match fileWrite fs p c with
  | .ok fs' => fs'
  | .error _ => fs

/-- Source `DataStructMmapManager.__init__` (lines 170-183): the Editor constructor,
`self.editable = True`, then — only when `create` — write a fresh file when
`force` or the backing file does not exist, and do nothing otherwise. -/
def managerInit (reg : Registry) (structName tag : String) (create force : Bool)
    (fs : FileSys) (now : Nat) : Except PyErr (AccessorState × FileSys) :=
  match editorInit reg structName tag with
  | .error e => .error e
  | .ok s =>
      let s := { s with editable := true }
      if create then
        if force || !(fileExists fs s.mmapFilePath) then
          .ok (s, createNewMmapFile fs s.mmapFilePath
                    (generateStruct s.structType now).encode)
        else
          .ok (s, fs)
      else
        .ok (s, fs)

/-! ## The accessor methods -/

/-- Source `BaseStructMmapManager.getLastUpdate` (lines 62-75): when a mapping is
open, `seek(0)`, decode the struct, and return `mmData.header.time_stamp`;
otherwise return the Python integer `-1`. -/
def getLastUpdate (s : AccessorState) : Except PyErr CValue × AccessorState :=
  match s.mm with
  | some mm0 =>
      let mm1 : MMap := { mm0 with pos := 0 }
      let mmData := s.structType.decode (mm1.buf.drop mm1.pos)
      (walk mmData ["header", "time_stamp"], { s with mm := some mm1 })
  | none => (.ok (.vint (-1)), s)

/-- Source `DataStructMmapReader.readData` (lines 86-102): `self.mm.seek(0)` (an
`AttributeError` when `self.mm` is `None`), decode a copy of the struct, then
walk the dotted key with `getattr`. -/
def readData (s : AccessorState) (key : String) : Except PyErr CValue × AccessorState :=
  match s.mm with
  | none => (.error (.attributeError "seek"), s)
  | some mm0 =>
      let mm1 : MMap := { mm0 with pos := 0 }
      let mmData := s.structType.decode (mm1.buf.drop mm1.pos)
      (walk mmData (splitDot key), { s with mm := some mm1 })

/-- Source `DataStructMmapReader.readMappedBuffer` (lines 104-109): `None` when no
mapping is open, else `seek(0)` and a decoded copy of the whole struct. -/
def readMappedBuffer (s : AccessorState) : Option CValue × AccessorState :=
  match s.mm with
  | none => (none, s)
  | some mm0 =>
      let mm1 : MMap := { mm0 with pos := 0 }
      (some (s.structType.decode (mm1.buf.drop mm1.pos)), { s with mm := some mm1 })

/-- Source `DataStructMmapEditor.updateLastUpdate` (lines 119-127): when a mapping is
open, `seek(0)`, take a live view, and execute
`mmData.header.time_stamp = time.time()`; a silent no-op otherwise. -/
def updateLastUpdate (s : AccessorState) (now : Nat) : Except PyErr Unit × AccessorState :=
  match s.mm with
  | none => (.ok (), s)
  | some mm0 =>
      let mm1 : MMap := { mm0 with pos := 0 }
      let mmData := s.structType.decode (mm1.buf.drop mm1.pos)
      match getattrV mmData "header" with
      | .error e => (.error e, { s with mm := some mm1 })
      | .ok hdr =>
          match setattrV hdr "time_stamp" (.vfloat now) with
          | .error e => (.error e, { s with mm := some mm1 })
          | .ok hdr' =>
              let v' := setField mmData "header" hdr'
              let mm2 : MMap := { mm1 with buf := v'.encode ++ mm1.buf.drop s.structType.size }
              (.ok (), { s with mm := some mm2 })

/-- Source `DataStructMmapEditor.writeData` (lines 129-149): when a mapping is open,
`seek(0)`, take a live view, navigate `key.split('.')[:-1]` with `getattr`,
and `setattr` the final segment; a silent no-op when `self.mm` is `None`. -/
def writeData (s : AccessorState) (key : String) (value : CValue) :
    Except PyErr Unit × AccessorState :=
  match s.mm with
  | none => (.ok (), s)
  | some mm0 =>
      let mm1 : MMap := { mm0 with pos := 0 }
      let mmData := s.structType.decode (mm1.buf.drop mm1.pos)
      let keyList := splitDot key
      match writePath mmData keyList.dropLast (keyList.getLastD "") value with
      | .error e => (.error e, { s with mm := some mm1 })
      | .ok v' =>
          let mm2 : MMap := { mm1 with buf := v'.encode ++ mm1.buf.drop s.structType.size }
          (.ok (), { s with mm := some mm2 })

/-- Source `DataStructMmapEditor.referMappedBuffer` (lines 151-156): `None` when no
mapping is open, else `seek(0)` and the live struct view. -/
def referMappedBuffer (s : AccessorState) : Option CValue × AccessorState :=
  match s.mm with
  | none => (none, s)
  | some mm0 =>
      let mm1 : MMap := { mm0 with pos := 0 }
      (some (s.structType.decode (mm1.buf.drop mm1.pos)), { s with mm := some mm1 })

/-- Source `DataStructMmapEditor.clearMappedBuffer` (lines 158-164): when a mapping
is open, `seek(0)` and `ctypes.memset(byref(mmData), 0, sizeof(mmData))` — the
first `sizeof` bytes of the region become zero. -/
def clearMappedBuffer (s : AccessorState) : AccessorState :=
  match s.mm with
  | none => s
  | some mm0 =>
      let mm1 : MMap := { mm0 with pos := 0 }
      let mm2 : MMap := { mm1 with buf := List.replicate s.structType.size 0 ++
                                            mm1.buf.drop s.structType.size }
      { s with mm := some mm2 }

/-- Overwrite the mapping cursor, modelling a cursor position left behind by
any previous interaction with the shared mapping. -/
def setPos (s : AccessorState) (p : Nat) : AccessorState :=
  { s with mm := s.mm.map (fun m => { m with pos := p }) }

/-! ## Interaction traces

The externally visible interactions each method body performs, in source
order, used to reason about the lock discipline and the seek discipline.  A
`lockAcquire`/`lockRelease` would be an acquisition/release of the advisory
file lock keyed by `fastenerFilePath`; no method body of
`struct_mmap_manager.py` contains one. -/

/-- One externally visible step of a method body. -/
inductive Event : Type where
  | lockAcquire : Event
  | lockRelease : Event
  | mmSeek : Nat → Event
  | mmDecode : Event
  | mmStore : Event
  | fileCreate : Event
deriving DecidableEq, Repr

/-- Interactions of `readData` (lines 86-102) on an open mapping:
`self.mm.seek(0)`, then `from_buffer_copy`; the `getattr` walk is pure. -/
def readDataEvents : List Event := [.mmSeek 0, .mmDecode]

/-- Interactions of `readMappedBuffer` (lines 104-109). -/
def readMappedBufferEvents (mmOpen : Bool) : List Event :=
  if mmOpen then [.mmSeek 0, .mmDecode] else []

/-- Interactions of `getLastUpdate` (lines 62-75). -/
def getLastUpdateEvents (mmOpen : Bool) : List Event :=
  if mmOpen then [.mmSeek 0, .mmDecode] else []

/-- Interactions of `writeData` (lines 129-149): seek, `from_buffer`, and the
final `setattr` store. -/
def writeDataEvents (mmOpen : Bool) : List Event :=
  if mmOpen then [.mmSeek 0, .mmDecode, .mmStore] else []

/-- Interactions of `updateLastUpdate` (lines 119-127). -/
def updateLastUpdateEvents (mmOpen : Bool) : List Event :=
  if mmOpen then [.mmSeek 0, .mmDecode, .mmStore] else []

/-- Interactions of `referMappedBuffer` (lines 151-156). -/
def referMappedBufferEvents (mmOpen : Bool) : List Event :=
  if mmOpen then [.mmSeek 0, .mmDecode] else []

/-- Interactions of `clearMappedBuffer` (lines 158-164): seek, `from_buffer`,
`memset`. -/
def clearMappedBufferEvents (mmOpen : Bool) : List Event :=
  if mmOpen then [.mmSeek 0, .mmDecode, .mmStore] else []

/-- Interactions of the create path of `DataStructMmapManager.__init__`
(lines 176-183). -/
def ensureStoreEvents (create force exists? : Bool) : List Event :=
  if create && (force || !exists?) then [.fileCreate] else []

/-! ## Lemmas about the byte codec -/

theorem natToBytes_length (w v : Nat) : (natToBytes w v).length = w := by
  induction w generalizing v with
  | zero => rfl
  | succ w ih => simp [natToBytes, ih]

theorem bytesToNat_natToBytes (w v : Nat) (h : v < 256 ^ w) :
    bytesToNat (natToBytes w v) = v := by
  induction w generalizing v with
  | zero =>
      simp only [pow_zero, Nat.lt_one_iff] at h
      subst h; rfl
  | succ w ih =>
      have hdiv : v / 256 < 256 ^ w := by
        rw [Nat.div_lt_iff_lt_mul (by norm_num : 0 < 256)]
        calc v < 256 ^ (w + 1) := h
          _ = 256 ^ w * 256 := by rw [pow_succ]
      simp only [natToBytes, bytesToNat]
      rw [ih _ hdiv]
      omega

theorem bytesToNat_lt (l : List Byte) : bytesToNat l < 256 ^ l.length := by
  induction l with
  | nil => simp [bytesToNat]
  | cons b rest ih =>
      have hb := b.isLt
      simp only [bytesToNat, List.length_cons, pow_succ]
      omega

theorem natToBytes_zero (w : Nat) : natToBytes w 0 = List.replicate w 0 := by
  induction w with
  | zero => rfl
  | succ w ih =>
      simp only [natToBytes, Nat.zero_mod, Nat.zero_div, ih, List.replicate]
      congr 1

theorem bytesToNat_replicate_zero (n : Nat) :
    bytesToNat (List.replicate n 0) = 0 := by
  induction n with
  | zero => rfl
  | succ n ih => simp [List.replicate, bytesToNat, ih]

theorem natToBytes_bytesToNat (l : List Byte) :
    natToBytes l.length (bytesToNat l) = l := by
  induction l with
  | nil => rfl
  | cons b rest ih =>
      simp only [List.length_cons, bytesToNat, natToBytes, List.cons.injEq]
      refine ⟨Fin.ext ?_, ?_⟩
      · show (b.val + 256 * bytesToNat rest) % 256 = b.val
        rw [Nat.add_mul_mod_self_left, Nat.mod_eq_of_lt b.isLt]
      · have : (b.val + 256 * bytesToNat rest) / 256 = bytesToNat rest := by
          rw [Nat.add_mul_div_left _ _ (by norm_num : 0 < 256),
            Nat.div_eq_of_lt b.isLt, Nat.zero_add]
        rw [this, ih]

/-! ## Lemmas about typing, encoding and decoding -/

theorem typeOfV_of_hasType : ∀ (v : CValue) (t : CType), hasType v t = true →
    CValue.typeOfV v = t := by
  intro v
  induction v with
  | vint n => intro t h; cases t <;> simp [hasType] at h
  | vuint w x =>
      intro t h
      cases t <;> simp [hasType] at h
      simp [CValue.typeOfV, h.1]
  | vfloat p =>
      intro t h
      cases t <;> simp [hasType] at h
      simp [CValue.typeOfV]
  | vNil =>
      intro t h
      cases t <;> simp [hasType] at h
      simp [CValue.typeOfV]
  | vCons n v rest ihv ihrest =>
      intro t h
      cases t <;> simp [hasType] at h
      obtain ⟨⟨hn, hv⟩, hr⟩ := h
      simp [CValue.typeOfV, hn, ihv _ hv, ihrest _ hr]

theorem store_of_hasType : ∀ (v : CValue) (t : CType), hasType v t = true →
    storeValue t v = .ok v := by
  intro v
  induction v with
  | vint n => intro t h; cases t <;> simp [hasType] at h
  | vuint w x =>
      intro t h
      cases t <;> simp [hasType] at h
      obtain ⟨hw, hx⟩ := h
      subst hw
      simp [storeValue, Nat.mod_eq_of_lt hx]
  | vfloat p =>
      intro t h
      cases t <;> simp [hasType] at h
      simp [storeValue, Nat.mod_eq_of_lt h]
  | vNil =>
      intro t h
      cases t <;> simp [hasType] at h
      simp [storeValue, hasType]
  | vCons n v rest ihv ihrest =>
      intro t h
      cases t <;> simp [hasType] at h
      obtain ⟨⟨hn, hv⟩, hr⟩ := h
      simp [storeValue, hasType, hn, hv, hr]

theorem encode_length_of_hasType : ∀ (v : CValue) (t : CType),
    hasType v t = true → v.encode.length = t.size := by
  intro v
  induction v with
  | vint n => intro t h; cases t <;> simp [hasType] at h
  | vuint w x =>
      intro t h
      cases t <;> simp [hasType] at h
      simp [CValue.encode, CType.size, natToBytes_length, h.1]
  | vfloat p =>
      intro t h
      cases t <;> simp [hasType] at h
      simp [CValue.encode, CType.size, natToBytes_length]
  | vNil =>
      intro t h
      cases t <;> simp [hasType] at h
      simp [CValue.encode, CType.size]
  | vCons n v rest ihv ihrest =>
      intro t h
      cases t <;> simp [hasType] at h
      obtain ⟨⟨hn, hv⟩, hr⟩ := h
      simp [CValue.encode, CType.size, ihv _ hv, ihrest _ hr]

theorem decode_hasType : ∀ (t : CType) (bs : List Byte),
    hasType (t.decode bs) t = true := by
  intro t
  induction t with
  | uint w =>
      intro bs
      simp only [CType.decode, hasType, Bool.and_eq_true, beq_self_eq_true,
        decide_eq_true_eq, true_and]
      calc bytesToNat (bs.take w) < 256 ^ (bs.take w).length := bytesToNat_lt _
        _ ≤ 256 ^ w := by
            apply Nat.pow_le_pow_right (by norm_num)
            simp [List.length_take]
  | double =>
      intro bs
      simp only [CType.decode, hasType, decide_eq_true_eq]
      calc bytesToNat (bs.take 8) < 256 ^ (bs.take 8).length := bytesToNat_lt _
        _ ≤ 256 ^ 8 := by
            apply Nat.pow_le_pow_right (by norm_num)
            simp [List.length_take]
  | sNil => intro bs; rfl
  | sCons n t rest iht ihrest =>
      intro bs
      simp [CType.decode, hasType, iht, ihrest]

theorem decode_encode : ∀ (t : CType) (v : CValue) (rest : List Byte),
    hasType v t = true → t.decode (v.encode ++ rest) = v := by
  intro t
  induction t with
  | uint w =>
      intro v rest h
      cases v <;> simp [hasType] at h
      obtain ⟨hw, hx⟩ := h
      subst hw
      simp only [CValue.encode, CType.decode]
      rw [List.take_left' (natToBytes_length _ _), bytesToNat_natToBytes _ _ hx]
  | double =>
      intro v rest h
      cases v <;> simp [hasType] at h
      simp only [CValue.encode, CType.decode]
      rw [List.take_left' (natToBytes_length _ _), bytesToNat_natToBytes _ _ h]
  | sNil =>
      intro v rest h
      cases v <;> simp [hasType] at h
      rfl
  | sCons n t trest iht ihrest =>
      intro v rest h
      cases v with
      | vint m => simp [hasType] at h
      | vuint w x => simp [hasType] at h
      | vfloat p => simp [hasType] at h
      | vNil => simp [hasType] at h
      | vCons n' v1 v2 =>
          simp [hasType] at h
          obtain ⟨⟨hn, hv⟩, hr⟩ := h
          subst hn
          simp only [CValue.encode, CType.decode, List.append_assoc]
          have hlen : v1.encode.length = t.size := encode_length_of_hasType _ _ hv
          rw [List.take_left' hlen, List.drop_left' hlen]
          have h1 := iht v1 ([] : List Byte) hv
          rw [List.append_nil] at h1
          rw [h1, ihrest _ _ hr]

theorem encode_decode : ∀ (t : CType) (bs : List Byte), t.size ≤ bs.length →
    (t.decode bs).encode = bs.take t.size := by
  intro t
  induction t with
  | uint w =>
      intro bs h
      simp only [CType.decode, CValue.encode, CType.size] at *
      have hlen : (bs.take w).length = w := by simp [List.length_take]; omega
      nth_rewrite 1 [← hlen]
      exact natToBytes_bytesToNat _
  | double =>
      intro bs h
      simp only [CType.decode, CValue.encode, CType.size] at *
      have hlen : (bs.take 8).length = 8 := by simp [List.length_take]; omega
      nth_rewrite 1 [← hlen]
      exact natToBytes_bytesToNat _
  | sNil => intro bs h; rfl
  | sCons n t trest iht ihrest =>
      intro bs h
      simp only [CType.decode, CValue.encode, CType.size] at *
      have h1 : t.size ≤ (bs.take t.size).length := by simp [List.length_take]; omega
      have h2 : trest.size ≤ (bs.drop t.size).length := by simp [List.length_drop]; omega
      rw [iht _ h1, ihrest _ h2, List.take_take, Nat.min_self, List.take_add]

theorem decode_replicate_zero : ∀ (t : CType) (m : Nat),
    t.decode (List.replicate m 0) = t.zeroVal := by
  intro t
  induction t with
  | uint w =>
      intro m
      simp [CType.decode, CType.zeroVal, List.take_replicate, bytesToNat_replicate_zero]
  | double =>
      intro m
      simp [CType.decode, CType.zeroVal, List.take_replicate, bytesToNat_replicate_zero]
  | sNil => intro m; rfl
  | sCons n t trest iht ihrest =>
      intro m
      simp only [CType.decode, CType.zeroVal, List.take_replicate, List.drop_replicate]
      rw [iht, ihrest]

theorem encode_zeroVal : ∀ (t : CType),
    (CType.zeroVal t).encode = List.replicate t.size 0 := by
  intro t
  induction t with
  | uint w => simp [CType.zeroVal, CValue.encode, CType.size, natToBytes_zero]
  | double => simp [CType.zeroVal, CValue.encode, CType.size, natToBytes_zero]
  | sNil => rfl
  | sCons n t trest iht ihrest =>
      simp only [CType.zeroVal, CValue.encode, CType.size]
      rw [iht, ihrest, List.replicate_add]

/-! ## Lemmas about attribute navigation -/

theorem getattrV_error : ∀ (v : CValue) (k : String) (e : PyErr),
    getattrV v k = .error e → e = .attributeError k := by
  intro v
  induction v with
  | vCons n v rest ihv ihrest =>
      intro k e h
      simp only [getattrV] at h
      by_cases hk : k = n
      · simp [hk] at h
      · rw [if_neg hk] at h
        exact ihrest _ _ h
  | vint m => intro k e h; simp [getattrV] at h; exact h.symm
  | vuint w x => intro k e h; simp [getattrV] at h; exact h.symm
  | vfloat p => intro k e h; simp [getattrV] at h; exact h.symm
  | vNil => intro k e h; simp [getattrV] at h; exact h.symm

theorem getattr_typed : ∀ (v : CValue) (t : CType) (k : String) (T : CType),
    hasType v t = true → lookupTy t k = some T →
    ∃ u, getattrV v k = .ok u ∧ hasType u T = true := by
  intro v
  induction v with
  | vint n => intro t k T h hl; cases t <;> simp [hasType] at h <;> simp [lookupTy] at hl
  | vuint w x => intro t k T h hl; cases t <;> simp [hasType] at h <;> simp [lookupTy] at hl
  | vfloat p => intro t k T h hl; cases t <;> simp [hasType] at h <;> simp [lookupTy] at hl
  | vNil => intro t k T h hl; cases t <;> simp [hasType] at h <;> simp [lookupTy] at hl
  | vCons n v rest ihv ihrest =>
      intro t k T h hl
      cases t with
      | uint w => simp [hasType] at h
      | double => simp [hasType] at h
      | sNil => simp [lookupTy] at hl
      | sCons n' t' trest =>
          simp [hasType] at h
          obtain ⟨⟨hn, hv⟩, hr⟩ := h
          subst hn
          simp only [lookupTy] at hl
          by_cases hk : k = n
          · rw [if_pos hk] at hl
            injection hl with hl
            subst hl
            exact ⟨v, by simp [getattrV, hk], hv⟩
          · rw [if_neg hk] at hl
            obtain ⟨u, hu, hut⟩ := ihrest trest k T hr hl
            exact ⟨u, by simp [getattrV, hk, hu], hut⟩

theorem setattr_write : ∀ (v : CValue) (t : CType) (k : String) (T : CType) (nv : CValue),
    hasType v t = true → lookupTy t k = some T → hasType nv T = true →
    setattrV v k nv = .ok (setField v k nv) ∧
      hasType (setField v k nv) t = true ∧
      getattrV (setField v k nv) k = .ok nv := by
  intro v
  induction v with
  | vint n => intro t k T nv h hl _; cases t <;> simp [hasType] at h <;> simp [lookupTy] at hl
  | vuint w x => intro t k T nv h hl _; cases t <;> simp [hasType] at h <;> simp [lookupTy] at hl
  | vfloat p => intro t k T nv h hl _; cases t <;> simp [hasType] at h <;> simp [lookupTy] at hl
  | vNil => intro t k T nv h hl _; cases t <;> simp [hasType] at h <;> simp [lookupTy] at hl
  | vCons n v rest ihv ihrest =>
      intro t k T nv h hl hnv
      cases t with
      | uint w => simp [hasType] at h
      | double => simp [hasType] at h
      | sNil => simp [lookupTy] at hl
      | sCons n' t' trest =>
          simp [hasType] at h
          obtain ⟨⟨hn, hv⟩, hr⟩ := h
          subst hn
          simp only [lookupTy] at hl
          by_cases hk : k = n
          · rw [if_pos hk] at hl
            injection hl with hl
            subst hl
            have hstore : storeValue v.typeOfV nv = .ok nv := by
              rw [typeOfV_of_hasType v t' hv]
              exact store_of_hasType nv t' hnv
            refine ⟨?_, ?_, ?_⟩
            · simp [setattrV, hk, hstore, setField]
            · simp [setField, hk, hasType, hnv, hr]
            · simp [setField, getattrV, hk]
          · rw [if_neg hk] at hl
            obtain ⟨h1, h2, h3⟩ := ihrest trest k T nv hr hl hnv
            refine ⟨?_, ?_, ?_⟩
            · simp [setattrV, hk, h1, setField]
            · simp [setField, hk, hasType, hv, h2]
            · simp [setField, getattrV, hk, h3]

theorem getattr_setField : ∀ (v : CValue) (k : String) (sub sub' : CValue),
    getattrV v k = .ok sub → getattrV (setField v k sub') k = .ok sub' := by
  intro v
  induction v with
  | vCons n v rest ihv ihrest =>
      intro k sub sub' h
      simp only [getattrV] at h
      by_cases hk : k = n
      · simp [setField, getattrV, hk]
      · rw [if_neg hk] at h
        simp [setField, getattrV, hk, ihrest _ _ _ h]
  | vint m => intro k sub sub' h; simp [getattrV] at h
  | vuint w x => intro k sub sub' h; simp [getattrV] at h
  | vfloat p => intro k sub sub' h; simp [getattrV] at h
  | vNil => intro k sub sub' h; simp [getattrV] at h

theorem setField_hasType : ∀ (v : CValue) (t : CType) (k : String) (tk : CType)
    (sub' : CValue), hasType v t = true → lookupTy t k = some tk →
    hasType sub' tk = true → hasType (setField v k sub') t = true := by
  intro v
  induction v with
  | vint n => intro t k tk sub' h hl _; cases t <;> simp [hasType] at h <;> simp [lookupTy] at hl
  | vuint w x => intro t k tk sub' h hl _; cases t <;> simp [hasType] at h <;> simp [lookupTy] at hl
  | vfloat p => intro t k tk sub' h hl _; cases t <;> simp [hasType] at h <;> simp [lookupTy] at hl
  | vNil => intro t k tk sub' h hl _; cases t <;> simp [hasType] at h <;> simp [lookupTy] at hl
  | vCons n v rest ihv ihrest =>
      intro t k tk sub' h hl hsub
      cases t with
      | uint w => simp [hasType] at h
      | double => simp [hasType] at h
      | sNil => simp [lookupTy] at hl
      | sCons n' t' trest =>
          simp [hasType] at h
          obtain ⟨⟨hn, hv⟩, hr⟩ := h
          subst hn
          simp only [lookupTy] at hl
          by_cases hk : k = n
          · rw [if_pos hk] at hl
            injection hl with hl
            subst hl
            simp [setField, hk, hasType, hsub, hr]
          · rw [if_neg hk] at hl
            simp [setField, hk, hasType, hv, ihrest trest k tk sub' hr hl hsub]

theorem setField_self : ∀ (v : CValue) (k : String) (sub : CValue),
    getattrV v k = .ok sub → setField v k sub = v := by
  intro v
  induction v with
  | vCons n v rest ihv ihrest =>
      intro k sub h
      simp only [getattrV] at h
      by_cases hk : k = n
      · rw [if_pos hk] at h
        injection h with h
        simp [setField, hk, h]
      · rw [if_neg hk] at h
        simp [setField, hk, ihrest _ _ h]
  | vint m => intro k sub h; simp [getattrV] at h
  | vuint w x => intro k sub h; simp [getattrV] at h
  | vfloat p => intro k sub h; simp [getattrV] at h
  | vNil => intro k sub h; simp [getattrV] at h

theorem walk_firstUnresolved : ∀ (ks : List String) (v : CValue) (s : String),
    firstUnresolved v ks = some s → walk v ks = .error (.attributeError s) := by
  intro ks
  induction ks with
  | nil => intro v s h; simp [firstUnresolved] at h
  | cons k rest ih =>
      intro v s h
      simp only [firstUnresolved] at h
      cases hg : getattrV v k with
      | ok v' =>
          rw [hg] at h
          simp only [walk, hg]
          exact ih v' s h
      | error e =>
          rw [hg] at h
          injection h with h
          subst h
          simp only [walk, hg]
          rw [getattrV_error v k e hg]

theorem writePath_roundtrip : ∀ (pre : List String) (t : CType) (v : CValue)
    (last : String) (nv : CValue) (T : CType),
    hasType v t = true → resolvePathTy t (pre ++ [last]) = some T →
    hasType nv T = true →
    ∃ v', writePath v pre last nv = .ok v' ∧ hasType v' t = true ∧
      walk v' (pre ++ [last]) = .ok nv := by
  intro pre
  induction pre with
  | nil =>
      intro t v last nv T hv hres hnv
      simp only [List.nil_append, resolvePathTy] at hres
      cases hlk : lookupTy t last with
      | none => rw [hlk] at hres; simp at hres
      | some T' =>
          rw [hlk] at hres
          simp only [resolvePathTy] at hres
          injection hres with hres
          subst hres
          obtain ⟨h1, h2, h3⟩ := setattr_write v t last T' nv hv hlk hnv
          refine ⟨setField v last nv, h1, h2, ?_⟩
          simp [walk, h3]
  | cons k rest ih =>
      intro t v last nv T hv hres hnv
      simp only [List.cons_append, resolvePathTy] at hres
      cases hlk : lookupTy t k with
      | none => rw [hlk] at hres; simp at hres
      | some tk =>
          rw [hlk] at hres
          obtain ⟨sub, hsub, hsubty⟩ := getattr_typed v t k tk hv hlk
          obtain ⟨sub', h1, h2, h3⟩ := ih tk sub last nv T hsubty hres hnv
          refine ⟨setField v k sub', ?_, ?_, ?_⟩
          · simp [writePath, hsub, h1]
          · exact setField_hasType v t k tk sub' hv hlk h2
          · simp [walk, getattr_setField v k sub sub' hsub, h3]

theorem writePath_firstUnresolved : ∀ (pre : List String) (v : CValue)
    (s last : String) (nv : CValue), firstUnresolved v pre = some s →
    writePath v pre last nv = .error (.attributeError s) := by
  intro pre
  induction pre with
  | nil => intro v s last nv h; simp [firstUnresolved] at h
  | cons k rest ih =>
      intro v s last nv h
      simp only [firstUnresolved] at h
      cases hg : getattrV v k with
      | ok v' =>
          rw [hg] at h
          simp only [writePath, hg]
          rw [ih v' s last nv h]
      | error e =>
          rw [hg] at h
          injection h with h
          subst h
          simp only [writePath, hg]
          rw [getattrV_error v k e hg]

theorem writePath_leaf : ∀ (pre : List String) (v w : CValue) (last : String)
    (nv : CValue), walk v pre = .ok w → isLeafV w = true →
    writePath v pre last nv = .error (.attributeError last) := by
  intro pre
  induction pre with
  | nil =>
      intro v w last nv h hleaf
      simp only [walk] at h
      injection h with h
      subst h
      cases v <;> simp [isLeafV] at hleaf <;> simp [writePath, setattrV]
  | cons k rest ih =>
      intro v w last nv h hleaf
      simp only [walk] at h
      cases hg : getattrV v k with
      | ok v' =>
          rw [hg] at h
          simp only [writePath, hg]
          rw [ih v' w last nv h hleaf]
      | error e => rw [hg] at h; simp at h

theorem setattr_missing : ∀ (w : CValue) (last : String) (nv : CValue),
    isStructChain w = true → lookupV w last = none →
    setattrV w last nv = .ok w := by
  intro w
  induction w with
  | vNil => intro last nv _ _; simp [setattrV]
  | vCons n v rest ihv ihrest =>
      intro last nv hchain hlk
      simp only [isStructChain] at hchain
      simp only [lookupV] at hlk
      by_cases hk : last = n
      · simp [hk] at hlk
      · rw [if_neg hk] at hlk
        simp [setattrV, hk, ihrest last nv hchain hlk]
  | vint m => intro last nv h _; simp [isStructChain] at h
  | vuint w x => intro last nv h _; simp [isStructChain] at h
  | vfloat p => intro last nv h _; simp [isStructChain] at h

theorem writePath_unchanged : ∀ (pre : List String) (v w : CValue)
    (last : String) (nv : CValue), walk v pre = .ok w →
    setattrV w last nv = .ok w → writePath v pre last nv = .ok v := by
  intro pre
  induction pre with
  | nil =>
      intro v w last nv h hset
      simp only [walk] at h
      injection h with h
      subst h
      simpa [writePath] using hset
  | cons k rest ih =>
      intro v w last nv h hset
      simp only [walk] at h
      cases hg : getattrV v k with
      | ok v' =>
          rw [hg] at h
          simp only [writePath, hg]
          rw [ih v' w last nv h hset]
          simp [setField_self v k v' hg]
      | error e => rw [hg] at h; simp at h

/-! ## Lemmas about the registry and the filesystem -/

theorem searchStructType_eq_lookup (reg : Registry) (name : String) :
    searchStructType reg name =
      match lookupReg reg name with
      | some t => .ok t
      | none => .error (.structNotFound name) := by
  induction reg with
  | nil => rfl
  | cons p rest ih =>
      obtain ⟨n, t⟩ := p
      simp only [searchStructType, lookupReg]
      by_cases h : name = n
      · simp [h]
      · simp [h, ih]

theorem lookupFile_setFile (files : List (String × List Byte)) (p : String)
    (c : List Byte) : lookupFile (setFile files p c) p = some c := by
  induction files with
  | nil => simp [setFile, lookupFile]
  | cons q rest ih =>
      obtain ⟨q1, d⟩ := q
      simp only [setFile]
      by_cases h : p = q1
      · simp [h, lookupFile]
      · simp [lookupFile, h, ih]

/-- The state a successful `DataStructMmapManager.__init__` produces before
any mapping is opened. -/
def mgrState (t : CType) (name tag : String) : AccessorState :=
  { structType := t
    mmapFilePath := name ++ "_" ++ tag ++ ".mmap"
    fastenerFilePath := name ++ "_" ++ tag ++ ".lockfile"
    editable := true
    mm := none }

theorem managerInit_create_eq (reg : Registry) (name tag : String) (fs : FileSys)
    (now : Nat) (t : CType) (hs : searchStructType reg name = .ok t) :
    managerInit reg name tag true false fs now =
      (if fileExists fs (name ++ "_" ++ tag ++ ".mmap") then
        .ok (mgrState t name tag, fs)
      else
        .ok (mgrState t name tag,
          createNewMmapFile fs (name ++ "_" ++ tag ++ ".mmap")
            (generateStruct t now).encode)) := by
  simp only [managerInit, editorInit, readerInit, baseInit, hs]
  by_cases h : fileExists fs (name ++ "_" ++ tag ++ ".mmap")
  · simp [h, mgrState]
  · simp [h, mgrState]

/-! ## Concrete example instances (used by the witnesses)

The `Telemetry` example of the specification: a header followed by one
float payload field `speed`. -/

def telemetryPayload : CType := .sCons "speed" .double .sNil

def Telemetry : CType := layoutOf telemetryPayload

def reg0 : Registry := [("Telemetry", Telemetry)]

/-- An editor-tier state whose mapping is not open (`self.mm is None`). -/
def sClosed : AccessorState :=
  { structType := Telemetry
    mmapFilePath := "Telemetry_car1.mmap"
    fastenerFilePath := "Telemetry_car1.lockfile"
    editable := true
    mm := none }

/-- An editor-tier state over an open all-zero 24-byte mapping whose cursor
was left at position 5 by a previous interaction. -/
def sOpen : AccessorState :=
  { sClosed with mm := some { pos := 5, buf := List.replicate 24 0 } }

/-! ## The claims -/

/-- C1: the claim states that a failing file creation in the Manager's create
path surfaces a `StoreCreationError` and the constructor does not complete
normally.  The code does the opposite: `_createNewMmapFile` swallows every
exception (`except Exception: pass`).  On an unwritable filesystem (the
modelled `PermissionError`), `DataStructMmapManager.__init__` with
`create=True` completes normally, returns the fully constructed state, and
leaves the filesystem without the backing file. -/
theorem claim_C1_creation_failure_swallowed :
    managerInit reg0 "Telemetry" "car1" true false
        { files := [], writable := false } 100 =
      .ok ({ structType := Telemetry
             mmapFilePath := "Telemetry_car1.mmap"
             fastenerFilePath := "Telemetry_car1.lockfile"
             editable := true
             mm := none },
           { files := [], writable := false }) := by
  rfl

/-- C3: the claim states that every read/write critical section acquires the
advisory file lock before touching the mapping and releases it afterwards.
The method bodies of `struct_mmap_manager.py` contain no lock operation at
all: every interaction trace touches the mapping (or creates the backing
file) yet contains neither a lock acquisition nor a lock release. -/
theorem claim_C3_no_lock_around_critical_sections :
    (Event.lockAcquire ∉ readDataEvents ∧ Event.lockRelease ∉ readDataEvents ∧
      Event.mmDecode ∈ readDataEvents) ∧
    (∀ b, Event.lockAcquire ∉ readMappedBufferEvents b ∧
      Event.lockRelease ∉ readMappedBufferEvents b) ∧
    Event.mmDecode ∈ readMappedBufferEvents true ∧
    (∀ b, Event.lockAcquire ∉ writeDataEvents b ∧
      Event.lockRelease ∉ writeDataEvents b) ∧
    Event.mmStore ∈ writeDataEvents true ∧
    (∀ b, Event.lockAcquire ∉ updateLastUpdateEvents b ∧
      Event.lockRelease ∉ updateLastUpdateEvents b) ∧
    Event.mmStore ∈ updateLastUpdateEvents true ∧
    (∀ b, Event.lockAcquire ∉ clearMappedBufferEvents b ∧
      Event.lockRelease ∉ clearMappedBufferEvents b) ∧
    Event.mmStore ∈ clearMappedBufferEvents true ∧
    (∀ c f e, Event.lockAcquire ∉ ensureStoreEvents c f e ∧
      Event.lockRelease ∉ ensureStoreEvents c f e) ∧
    Event.fileCreate ∈ ensureStoreEvents true true false :=
  ⟨by decide,
   fun b => by cases b <;> decide,
   by decide,
   fun b => by cases b <;> decide,
   by decide,
   fun b => by cases b <;> decide,
   by decide,
   fun b => by cases b <;> decide,
   by decide,
   fun c f e => by cases c <;> cases f <;> cases e <;> decide,
   by decide⟩

theorem createNewMmapFile_unwritable (fs : FileSys) (p : String) (c : List Byte)
    (h : fs.writable = false) : createNewMmapFile fs p c = fs := by
  simp [createNewMmapFile, fileWrite, h]

theorem createNewMmapFile_writable (fs : FileSys) (p : String) (c : List Byte)
    (h : fs.writable = true) :
    createNewMmapFile fs p c = { fs with files := setFile fs.files p c } := by
  simp [createNewMmapFile, fileWrite, h]

/-- C4: constructing a Manager with `create=true, force=false` over an
existing backing file leaves the filesystem (hence the file's size and
contents) unchanged, and running the same construction twice in a row leaves
the filesystem exactly as it was after the first construction. -/
theorem claim_C4_create_noforce_idempotent (reg : Registry) (name tag : String)
    (fs : FileSys) (now now2 : Nat) (t : CType)
    (hs : searchStructType reg name = .ok t) :
    (fileExists fs (name ++ "_" ++ tag ++ ".mmap") = true →
      managerInit reg name tag true false fs now = .ok (mgrState t name tag, fs)) ∧
    (∀ s1 fs1, managerInit reg name tag true false fs now = .ok (s1, fs1) →
      managerInit reg name tag true false fs1 now2 = .ok (s1, fs1)) := by
  constructor
  · intro hex
    rw [managerInit_create_eq reg name tag fs now t hs, if_pos hex]
  · intro s1 fs1 h1
    rw [managerInit_create_eq reg name tag fs now t hs] at h1
    by_cases hex : fileExists fs (name ++ "_" ++ tag ++ ".mmap") = true
    · rw [if_pos hex] at h1
      injection h1 with h1
      injection h1 with hA hB
      subst hA
      subst hB
      rw [managerInit_create_eq reg name tag fs now2 t hs, if_pos hex]
    · rw [if_neg hex] at h1
      injection h1 with h1
      injection h1 with hA hB
      subst hA
      cases hw : fs.writable with
      | true =>
          rw [createNewMmapFile_writable fs _ _ hw] at hB
          subst hB
          rw [managerInit_create_eq reg name tag _ now2 t hs, if_pos
            (by simp [fileExists, lookupFile_setFile])]
      | false =>
          rw [createNewMmapFile_unwritable fs _ _ hw] at hB
          subst hB
          rw [managerInit_create_eq reg name tag fs now2 t hs, if_neg hex,
            createNewMmapFile_unwritable fs _ _ hw]

/-- C4 witness: a concrete filesystem already holding the backing file; the
Manager construction with `create=true, force=false` returns it unchanged,
and a second identical construction also returns it unchanged. -/
theorem claim_C4_witness :
    managerInit reg0 "Telemetry" "car1" true false
        { files := [("Telemetry_car1.mmap", List.replicate 24 0)], writable := true } 100 =
      .ok (mgrState Telemetry "Telemetry" "car1",
        { files := [("Telemetry_car1.mmap", List.replicate 24 0)], writable := true }) ∧
    managerInit reg0 "Telemetry" "car1" true false
        { files := [("Telemetry_car1.mmap", List.replicate 24 0)], writable := true } 101 =
      .ok (mgrState Telemetry "Telemetry" "car1",
        { files := [("Telemetry_car1.mmap", List.replicate 24 0)], writable := true }) := by
  have h := claim_C4_create_noforce_idempotent reg0 "Telemetry" "car1"
    { files := [("Telemetry_car1.mmap", List.replicate 24 0)], writable := true }
    100 101 Telemetry (by rfl)
  refine ⟨h.1 (by rfl), h.2 _ _ (h.1 (by rfl))⟩

/-- C6: `getLastUpdate` returns the Python integer `-1` (a deliberate
sentinel, not an error) whenever no mapping is open, and on an open mapping it
returns the header's `time_stamp` field — the float whose pattern is stored in
bytes 8..16 of the region. -/
theorem claim_C6_getLastUpdate_sentinel (s : AccessorState) (payload : CType)
    (m : MMap) :
    (s.mm = none → getLastUpdate s = (.ok (.vint (-1)), s)) ∧
    (s.structType = layoutOf payload → s.mm = some m →
      (getLastUpdate s).1 = .ok (.vfloat (bytesToNat ((m.buf.drop 8).take 8)))) := by
  constructor
  · intro h
    simp [getLastUpdate, h]
  · intro ht hm
    simp only [getLastUpdate, hm, ht, List.drop_zero]
    simp [layoutOf, headerType, CType.decode, CType.size, walk, getattrV,
      List.drop_take, List.take_take]

/-- C6 witness. -/
theorem claim_C6_witness :
    getLastUpdate sClosed = (.ok (.vint (-1)), sClosed) ∧
    (getLastUpdate sOpen).1 =
      .ok (.vfloat (bytesToNat (((List.replicate 24 (0 : Byte)).drop 8).take 8))) := by
  have h := claim_C6_getLastUpdate_sentinel sClosed telemetryPayload
    { pos := 0, buf := [] }
  have h2 := claim_C6_getLastUpdate_sentinel sOpen telemetryPayload
    { pos := 5, buf := List.replicate 24 0 }
  exact ⟨h.1 (by rfl), h2.2 (by rfl) (by rfl)⟩

/-- C8: constructing any accessor tier with an unregistered struct name fails
with `StructNotFoundIpMmapError` (the spec's `StructNotFoundError`), and for a
registered name every tier resolves it to the registered layout type. -/
theorem claim_C8_registry_resolution (reg : Registry) (name tag : String)
    (t : CType) (create force : Bool) (fs : FileSys) (now : Nat) :
    (lookupReg reg name = none →
      readerInit reg name tag = .error (.structNotFound name) ∧
      editorInit reg name tag = .error (.structNotFound name) ∧
      managerInit reg name tag create force fs now = .error (.structNotFound name)) ∧
    (lookupReg reg name = some t →
      (∃ s, readerInit reg name tag = .ok s ∧ s.structType = t) ∧
      (∃ s, editorInit reg name tag = .ok s ∧ s.structType = t) ∧
      (∃ s fs', managerInit reg name tag false false fs now = .ok (s, fs') ∧
        s.structType = t)) := by
  constructor
  · intro h
    refine ⟨?_, ?_, ?_⟩ <;>
      simp [readerInit, editorInit, managerInit, baseInit,
        searchStructType_eq_lookup, h]
  · intro h
    have hs : searchStructType reg name = .ok t := by
      rw [searchStructType_eq_lookup, h]
    refine ⟨⟨{ structType := t, mmapFilePath := name ++ "_" ++ tag ++ ".mmap",
               fastenerFilePath := name ++ "_" ++ tag ++ ".lockfile",
               editable := false, mm := none }, ?_, rfl⟩,
            ⟨{ structType := t, mmapFilePath := name ++ "_" ++ tag ++ ".mmap",
               fastenerFilePath := name ++ "_" ++ tag ++ ".lockfile",
               editable := true, mm := none }, ?_, rfl⟩,
            ⟨{ structType := t, mmapFilePath := name ++ "_" ++ tag ++ ".mmap",
               fastenerFilePath := name ++ "_" ++ tag ++ ".lockfile",
               editable := true, mm := none }, fs, ?_, rfl⟩⟩ <;>
      simp [readerInit, editorInit, managerInit, baseInit, hs]

/-- C8 witness: `"Unregistered"` fails on all three tiers; `"Telemetry"`
resolves to the registered layout on all three tiers. -/
theorem claim_C8_witness :
    (readerInit reg0 "Unregistered" "" = .error (.structNotFound "Unregistered") ∧
      editorInit reg0 "Unregistered" "" = .error (.structNotFound "Unregistered") ∧
      managerInit reg0 "Unregistered" "" false false { files := [], writable := true } 0 =
        .error (.structNotFound "Unregistered")) ∧
    ((∃ s, readerInit reg0 "Telemetry" "" = .ok s ∧ s.structType = Telemetry) ∧
      (∃ s, editorInit reg0 "Telemetry" "" = .ok s ∧ s.structType = Telemetry) ∧
      (∃ s fs', managerInit reg0 "Telemetry" "" false false
          { files := [], writable := true } 0 = .ok (s, fs') ∧
        s.structType = Telemetry)) := by
  have h1 := claim_C8_registry_resolution reg0 "Unregistered" "" Telemetry
    false false { files := [], writable := true } 0
  have h2 := claim_C8_registry_resolution reg0 "Telemetry" "" Telemetry
    false false { files := [], writable := true } 0
  exact ⟨h1.1 (by rfl), h2.2 (by rfl)⟩

/-- C9: every read or write operation on the mapped region seeks to offset 0
before decoding or encoding (the head of each interaction trace on an open
mapping is `seek 0`), so no operation's outcome depends on the cursor
position a previous call left behind: each operation yields identical results
and identical post-states for any two initial cursor positions. -/
theorem claim_C9_reseek_cursor_independent (s : AccessorState) (p q : Nat)
    (key : String) (v : CValue) (now : Nat) :
    readData (setPos s p) key = readData (setPos s q) key ∧
    readMappedBuffer (setPos s p) = readMappedBuffer (setPos s q) ∧
    getLastUpdate (setPos s p) = getLastUpdate (setPos s q) ∧
    writeData (setPos s p) key v = writeData (setPos s q) key v ∧
    updateLastUpdate (setPos s p) now = updateLastUpdate (setPos s q) now ∧
    referMappedBuffer (setPos s p) = referMappedBuffer (setPos s q) ∧
    clearMappedBuffer (setPos s p) = clearMappedBuffer (setPos s q) ∧
    readDataEvents.head? = some (.mmSeek 0) ∧
    (readMappedBufferEvents true).head? = some (.mmSeek 0) ∧
    (getLastUpdateEvents true).head? = some (.mmSeek 0) ∧
    (writeDataEvents true).head? = some (.mmSeek 0) ∧
    (updateLastUpdateEvents true).head? = some (.mmSeek 0) ∧
    (referMappedBufferEvents true).head? = some (.mmSeek 0) ∧
    (clearMappedBufferEvents true).head? = some (.mmSeek 0) := by
  cases hmm : s.mm with
  | none =>
      refine ⟨?_, ?_, ?_, ?_, ?_, ?_, ?_, ?_, ?_, ?_, ?_, ?_, ?_, ?_⟩ <;>
        simp [setPos, hmm, readData, readMappedBuffer, getLastUpdate, writeData,
          updateLastUpdate, referMappedBuffer, clearMappedBuffer, readDataEvents,
          readMappedBufferEvents, getLastUpdateEvents, writeDataEvents,
          updateLastUpdateEvents, referMappedBufferEvents, clearMappedBufferEvents]
  | some m =>
      refine ⟨?_, ?_, ?_, ?_, ?_, ?_, ?_, ?_, ?_, ?_, ?_, ?_, ?_, ?_⟩ <;>
        simp [setPos, hmm, readData, readMappedBuffer, getLastUpdate, writeData,
          updateLastUpdate, referMappedBuffer, clearMappedBuffer, readDataEvents,
          readMappedBufferEvents, getLastUpdateEvents, writeDataEvents,
          updateLastUpdateEvents, referMappedBufferEvents, clearMappedBufferEvents]

/-- C10: when the mapping has not been opened (`self.mm is None`), `writeData`
returns `None` without raising and without changing any state, and
`updateLastUpdate` and `clearMappedBuffer` are likewise silent no-ops. -/
theorem claim_C10_write_ops_silently_dropped (s : AccessorState) (key : String)
    (v : CValue) (now : Nat) (h : s.mm = none) :
    writeData s key v = (.ok (), s) ∧
    updateLastUpdate s now = (.ok (), s) ∧
    clearMappedBuffer s = s := by
  refine ⟨?_, ?_, ?_⟩ <;> simp [writeData, updateLastUpdate, clearMappedBuffer, h]

/-- C10 witness. -/
theorem claim_C10_witness :
    writeData sClosed "speed" (.vfloat 42) = (.ok (), sClosed) ∧
    updateLastUpdate sClosed 100 = (.ok (), sClosed) ∧
    clearMappedBuffer sClosed = sClosed :=
  claim_C10_write_ops_silently_dropped sClosed "speed" (.vfloat 42) 100 (by rfl)

/-- C5: on an open mapping, writing a representable value of the declared
type of a valid dotted path and then reading the same path returns exactly
that value. -/
theorem claim_C5_write_read_roundtrip (s : AccessorState) (m : MMap)
    (key : String) (pre : List String) (last : String) (v : CValue) (T : CType)
    (hm : s.mm = some m)
    (hkey : splitDot key = pre ++ [last])
    (hres : resolvePathTy s.structType (pre ++ [last]) = some T)
    (hv : hasType v T = true) :
    ∃ s', writeData s key v = (.ok (), s') ∧ (readData s' key).1 = .ok v := by
  obtain ⟨v', h1, h2, h3⟩ := writePath_roundtrip pre s.structType
    (s.structType.decode m.buf) last v T (decode_hasType _ _) hres hv
  refine ⟨{ s with mm := some ⟨0, v'.encode ++ m.buf.drop s.structType.size⟩ }, ?_, ?_⟩
  · simp only [writeData, hm, List.drop_zero, hkey, List.dropLast_concat,
      List.getLastD_concat]
    rw [h1]
  · simp only [readData, List.drop_zero, hkey]
    rw [decode_encode s.structType v' _ h2, h3]

/-- C5 witness: writing `42.0` to the Telemetry `speed` field and reading it
back returns exactly that float. -/
theorem claim_C5_witness :
    ∃ s', writeData sOpen "speed" (.vfloat 42) = (.ok (), s') ∧
      (readData s' "speed").1 = .ok (.vfloat 42) :=
  claim_C5_write_read_roundtrip sOpen { pos := 5, buf := List.replicate 24 0 }
    "speed" [] "speed" (.vfloat 42) .double (by rfl) (by decide) (by decide)
    (by decide)

/-- C2 counterexample: on an open Telemetry mapping, reading the path
`"missing"` fails with the generic Python `AttributeError("missing")`, which
is not the specification's `FieldNotFoundError` — so the claim that
`readData` fails with `FieldNotFoundError` is false on the code. -/
theorem claim_C2_counterexample :
    (readData sOpen "missing").1 = .error (.attributeError "missing") ∧
    (readData sOpen "missing").1 ≠ .error (.fieldNotFound "missing") := by
  constructor
  · decide
  · decide

/-- C2 amended: on an open mapping, a path whose `getattr` chain fails makes
`readData` raise the generic `AttributeError` naming the first unresolved
segment (also when an intermediate segment denotes a leaf); `writeData` fails
the same way for any failure before the last segment and for a final
`setattr` on a leaf scalar, but a missing *final* field name on a struct view
is silently accepted (a transient Python attribute) and leaves the mapping
unchanged; no typed `FieldNotFoundError`/`NotNavigableError` is raised. -/
theorem claim_C2_amended_attributeError (s : AccessorState) (m : MMap)
    (hm : s.mm = some m) :
    (∀ key seg,
      firstUnresolved (s.structType.decode m.buf) (splitDot key) = some seg →
      (readData s key).1 = .error (.attributeError seg)) ∧
    (∀ key v seg,
      firstUnresolved (s.structType.decode m.buf) ((splitDot key).dropLast) = some seg →
      (writeData s key v).1 = .error (.attributeError seg)) ∧
    (∀ key v w,
      walk (s.structType.decode m.buf) ((splitDot key).dropLast) = .ok w →
      isLeafV w = true →
      (writeData s key v).1 =
        .error (.attributeError ((splitDot key).getLastD ""))) ∧
    (∀ key v w, s.structType.size ≤ m.buf.length →
      walk (s.structType.decode m.buf) ((splitDot key).dropLast) = .ok w →
      isStructChain w = true →
      lookupV w ((splitDot key).getLastD "") = none →
      writeData s key v = (.ok (), { s with mm := some { pos := 0, buf := m.buf } })) := by
  refine ⟨?_, ?_, ?_, ?_⟩
  · intro key seg h
    simp only [readData, hm, List.drop_zero]
    rw [walk_firstUnresolved _ _ _ h]
  · intro key v seg h
    simp only [writeData, hm, List.drop_zero]
    rw [writePath_firstUnresolved _ _ _ _ v h]
  · intro key v w hwalk hleaf
    simp only [writeData, hm, List.drop_zero]
    rw [writePath_leaf _ _ _ _ v hwalk hleaf]
  · intro key v w hlen hwalk hchain hlk
    simp only [writeData, hm, List.drop_zero]
    rw [writePath_unchanged _ _ _ _ v hwalk
      (setattr_missing w _ v hchain hlk)]
    simp only [encode_decode s.structType m.buf hlen, List.take_append_drop]

/-- C2 amended, witness: concrete instances of all four behaviours on the
Telemetry layout. -/
theorem claim_C2_amended_witness :
    (readData sOpen "speed.x").1 = .error (.attributeError "x") ∧
    (writeData sOpen "missing.x" (.vfloat 1)).1 = .error (.attributeError "missing") ∧
    (writeData sOpen "speed.x" (.vfloat 1)).1 = .error (.attributeError "x") ∧
    writeData sOpen "bogus" (.vfloat 1) =
      (.ok (), { sClosed with mm := some { pos := 0, buf := List.replicate 24 0 } }) := by
  have h := claim_C2_amended_attributeError sOpen
    { pos := 5, buf := List.replicate 24 0 } (by rfl)
  refine ⟨h.1 "speed.x" "x" (by decide),
          h.2.1 "missing.x" (.vfloat 1) "missing" (by decide),
          h.2.2.1 "speed.x" (.vfloat 1) (.vfloat 0) (by decide) (by decide),
          h.2.2.2 "bogus" (.vfloat 1) (Telemetry.decode (List.replicate 24 0))
            (by decide) (by decide) (by decide) (by decide)⟩

/-- C7: on an open, exactly struct-sized mapping, `clearMappedBuffer` zeroes
the entire mapped region, header included; reading the whole record
afterwards yields the all-zero record; a subsequent `updateLastUpdate` stores
the current time in the header's `time_stamp` field (bytes 8..16) while
leaving every other byte of the region — the first 8 (the magic) and
everything from byte 16 on (the payload) — unchanged from the zeroed
state. -/
theorem claim_C7_clear_then_update_frame (s : AccessorState) (payload : CType)
    (m : MMap) (now : Nat)
    (ht : s.structType = layoutOf payload)
    (hm : s.mm = some m)
    (hlen : m.buf.length = (layoutOf payload).size)
    (hnow : now < 256 ^ 8) :
    clearMappedBuffer s =
      { s with mm := some ⟨0, List.replicate ((layoutOf payload).size) 0⟩ } ∧
    (readMappedBuffer (clearMappedBuffer s)).1 = some ((layoutOf payload).zeroVal) ∧
    ∃ m2, updateLastUpdate (clearMappedBuffer s) now =
        (.ok (), { s with mm := some m2 }) ∧
      m2.buf.take 8 = List.replicate 8 0 ∧
      m2.buf.drop 16 = List.replicate payload.size 0 ∧
      (getLastUpdate { s with mm := some m2 }).1 = .ok (.vfloat now) := by
  have hdrop : m.buf.drop ((layoutOf payload).size) = [] := by
    rw [← hlen, List.drop_length]
  have hclear : clearMappedBuffer s =
      { s with mm := some ⟨0, List.replicate ((layoutOf payload).size) 0⟩ } := by
    simp only [clearMappedBuffer, hm, ht, hdrop, List.append_nil]
  refine ⟨hclear, ?_, ?_⟩
  · rw [hclear]
    simp [readMappedBuffer, ht, decode_replicate_zero]
  · refine ⟨⟨0, List.replicate 8 0 ++ (natToBytes 8 now ++ List.replicate payload.size 0)⟩,
      ?_, ?_, ?_, ?_⟩
    · rw [hclear]
      have hset : setattrV
          (CValue.vCons "magic" (CValue.vuint 8 0)
            (CValue.vCons "time_stamp" (CValue.vfloat 0) CValue.vNil))
          "time_stamp" (CValue.vfloat now) =
          .ok (CValue.vCons "magic" (CValue.vuint 8 0)
            (CValue.vCons "time_stamp" (CValue.vfloat now) CValue.vNil)) := by
        have hnow' : now < 18446744073709551616 := by
          calc now < 256 ^ 8 := hnow
            _ = 18446744073709551616 := by norm_num
        simp [setattrV, storeValue, CValue.typeOfV, Nat.mod_eq_of_lt hnow']
      simp only [updateLastUpdate, ht, List.drop_zero, decode_replicate_zero,
        layoutOf, headerType, CType.zeroVal, getattrV]
      simp only [String.reduceEq, reduceIte, hset]
      simp [setField, CValue.encode, natToBytes_zero, encode_zeroVal,
        CType.size, List.drop_replicate]
    · exact List.take_left' (by simp)
    · rw [← List.append_assoc]
      exact List.drop_left' (by simp [natToBytes_length])
    · simp only [getLastUpdate, ht, List.drop_zero]
      have hb1 : (List.replicate 8 (0 : Byte) ++
          (natToBytes 8 now ++ List.replicate payload.size 0)).take 16 =
          List.replicate 8 0 ++ natToBytes 8 now := by
        rw [← List.append_assoc]
        exact List.take_left' (by simp [natToBytes_length])
      have hb2 : ((List.replicate 8 (0 : Byte) ++ natToBytes 8 now).drop 8) =
          natToBytes 8 now := List.drop_left' (by simp)
      simp only [layoutOf, headerType, CType.decode, CType.size, walk, getattrV]
      norm_num
      rw [hb1, hb2]
      simp [List.take_take, List.take_of_length_le, natToBytes_length,
        bytesToNat_natToBytes 8 now hnow, walk, getattrV]

/-- C7 witness: the Telemetry layout over a 24-byte mapping. -/
theorem claim_C7_witness :
    clearMappedBuffer sOpen =
      { sOpen with mm := some ⟨0, List.replicate ((layoutOf telemetryPayload).size) 0⟩ } ∧
    (readMappedBuffer (clearMappedBuffer sOpen)).1 =
      some ((layoutOf telemetryPayload).zeroVal) ∧
    ∃ m2, updateLastUpdate (clearMappedBuffer sOpen) 1700000000 =
        (.ok (), { sOpen with mm := some m2 }) ∧
      m2.buf.take 8 = List.replicate 8 0 ∧
      m2.buf.drop 16 = List.replicate telemetryPayload.size 0 ∧
      (getLastUpdate { sOpen with mm := some m2 }).1 = .ok (.vfloat 1700000000) :=
  claim_C7_clear_then_update_frame sOpen telemetryPayload
    { pos := 5, buf := List.replicate 24 0 } 1700000000
    (by rfl) (by rfl) (by decide) (by decide)

end IpMmap
